import Mathlib

/-!
Formal model of the `onchain-tracker` multi-hop ERC-20 transfer tracer
(the `POST` handler of `src/app/api/trace/route.ts`).

The route is translated as a shallow embedding:
* JavaScript `Map` / `Set` become insertion-ordered association lists /
  lists without duplicates, with the exact insert-if-absent / overwrite
  operations the route performs;
* the Etherscan transfer query (`etherscanTokentx`) is abstracted into a
  provider function `String → TokentxResponse` (the `token`, `apikey` and
  `offset` query parameters are fixed for the whole trace and are absorbed
  into the provider);
* the bytecode classification query (`isContractAddress`) is abstracted
  into an oracle `String → Option Bool`, `none` modelling a thrown or
  failed request (the route catches and ignores such failures);
* JavaScript numbers are modelled as `JSNum` (a rational or NaN); the
  route never performs floating-point arithmetic beyond `Number(...)`
  conversion, `Math.min` / `Math.max` clamping and loop comparison, all
  of which are exact on rationals.
-/

/-! ## JavaScript primitives -/

/-- JavaScript number: either NaN or an exact (rational) value.  The route
only converts strings with `Number(...)`, clamps with `Math.min`/`Math.max`
and compares in the `for` loop, so rationals model these exactly. -/
inductive JSNum where
  | nan : JSNum
  | num : ℚ → JSNum
deriving DecidableEq

/-- `Math.min` (NaN-propagating, as in JavaScript). -/
def jsMin : JSNum → JSNum → JSNum
  | JSNum.nan, _ => JSNum.nan
  | _, JSNum.nan => JSNum.nan
  | JSNum.num a, JSNum.num b => JSNum.num (min a b)

/-- `Math.max` (NaN-propagating, as in JavaScript). -/
def jsMax : JSNum → JSNum → JSNum
  | JSNum.nan, _ => JSNum.nan
  | _, JSNum.nan => JSNum.nan
  | JSNum.num a, JSNum.num b => JSNum.num (max a b)

/-- Whitespace stripped by `String.prototype.trim` (ASCII subset; the
Unicode space code points behave identically and never occur here). -/
def isJsWhitespace (c : Char) : Bool :=
  c = ' ' || c = '\t' || c = '\n' || c = '\r' || c = '\x0b' || c = '\x0c'

/-- `trim` on a character list: drop whitespace at both ends. -/
def jsTrimList (l : List Char) : List Char :=
  ((l.dropWhile isJsWhitespace).reverse.dropWhile isJsWhitespace).reverse

/-- `String.prototype.trim`. -/
def jsTrimStr (s : String) : String :=
  (jsTrimList s.toList).asString

/-- Value of a decimal digit list (most significant first). -/
def natOfDigits (l : List Char) : Nat :=
  l.foldl (fun n c => 10 * n + (c.toNat - '0'.toNat)) 0

/-- Parse an unsigned decimal literal (digits, optionally a point and more
digits) as a rational; `none` when the characters are not such a literal.
The value `ds.fs` is the integer formed by `ds ++ fs` over `10 ^ |fs|`. -/
def parseDecLit (l : List Char) : Option ℚ :=
  match l.span Char.isDigit with
  | (ds, []) => if ds = [] then none else some (mkRat (natOfDigits ds) 1)
  | (ds, '.' :: fs) =>
      if fs.all Char.isDigit && !(ds = [] && fs = []) then
        some (mkRat (natOfDigits (ds ++ fs)) (10 ^ fs.length))
      else none
  | _ => none

/-- JavaScript `Number(string)`: trims whitespace, `""` is `0`, optional
sign, decimal literal; anything else is NaN.  (Hex/exponent literal forms
never occur in this development and are conservatively mapped to NaN.) -/
def jsNumberStr (s : String) : JSNum :=
  match jsTrimList s.toList with
  | [] => JSNum.num 0
  | '-' :: r => match parseDecLit r with
                | some q => JSNum.num (-q)
                | none => JSNum.nan
  | '+' :: r => match parseDecLit r with
                | some q => JSNum.num q
                | none => JSNum.nan
  | l => match parseDecLit l with
         | some q => JSNum.num q
         | none => JSNum.nan

/-- A JSON value that can appear in the request body's numeric fields
(`maxHops`, `perAddressLimit`): a number or a string.  `null` coalesces
through `??` exactly like an absent field, so both are modelled by
`Option.none` at the use sites. -/
inductive JSVal where
  | vNum : ℚ → JSVal
  | vStr : String → JSVal
deriving DecidableEq

/-- JavaScript `Number(x)` on a body value. -/
def jsNumberVal : JSVal → JSNum
  | JSVal.vNum q => JSNum.num q
  | JSVal.vStr s => jsNumberStr s

/-- `s || d` for strings: the JavaScript `||` default, taken when `s` is
falsy (the empty string). -/
def jsStrOr (s d : String) : String :=
  if s = "" then d else s

/-- Number of iterations of `for (let hop = 0; hop < maxHops; hop++)`:
the number of naturals strictly below `maxHops`; `0 < NaN` is false so a
NaN bound runs no iterations. -/
def hopIters : JSNum → Nat
  | JSNum.nan => 0
  | JSNum.num q => (max 0 (Int.ceil q)).toNat

/-- The `decimals` argument as it reaches the digit manipulations of
`formatAmount`: `decimals || 0` maps NaN to `0`; every call site passes
`Number(<digit string>)`, which is a non-negative integer or NaN, so the
floor on a stray non-integral rational only mirrors the truncation JS
string primitives would apply. -/
def jsToDecimals : JSNum → Int
  | JSNum.nan => 0
  | JSNum.num q => Int.floor q

/-- Is this JS number an integer in `[lo, hi]`?  (Used to state claims
about the clamped request parameters.) -/
def jsIsIntegerIn (lo hi : Int) : JSNum → Bool
  | JSNum.nan => false
  | JSNum.num q => if q.den = 1 then decide (lo ≤ q.num ∧ q.num ≤ hi) else false

/-- `b.x - a.x > 0` comparison used by the descending sorts; a NaN on
either side compares false (the ES sort treats a NaN comparator result
as `0`, i.e. "keep relative order"). -/
def jsLtB : JSNum → JSNum → Bool
  | JSNum.num a, JSNum.num b => a < b
  | _, _ => false

/-! ## Address utilities (`isEthAddress`, `normAddr`, slices) -/

/-- One character of `[a-fA-F0-9]`. -/
def isHexChar (c : Char) : Bool :=
  c.isDigit || ('a' ≤ c && c ≤ 'f') || ('A' ≤ c && c ≤ 'F')

/-- `/^0x[a-fA-F0-9]{40}$/.test x` (route's `isEthAddress`). -/
def isEthAddress (x : String) : Bool :=
  match x.toList with
  | '0' :: 'x' :: rest => rest.length = 40 && rest.all isHexChar
  | _ => false

/-- `normAddr`: `toLowerCase` (the addresses are ASCII, where
`Char.toLower` agrees with the JavaScript conversion), character by
character. -/
def normAddr (x : String) : String :=
  (x.toList.map Char.toLower).asString

/-- `s.slice(0, n)` for `n ≥ 0`. -/
def jsSliceFirst (s : String) (n : Nat) : String :=
  (s.toList.take n).asString

/-- `s.slice(-n)`: the last `n` characters (the whole string when it is
shorter). -/
def jsSliceLast (s : String) (n : Nat) : String :=
  (s.toList.drop (s.toList.length - n)).asString

/-! ## `formatAmount` -/

/-- `value.replace(/^0+/, "")`: strip leading zeros. -/
def stripLeadingZeros (l : List Char) : List Char :=
  l.dropWhile (fun c => c = '0')

/-- `frac.replace(/0+$/, "")`: strip trailing zeros. -/
def stripTrailingZeros (l : List Char) : List Char :=
  (l.reverse.dropWhile (fun c => c = '0')).reverse

/-- `formatAmount` of the route, on character lists.  Mirrors:
`v = value.replace(/^0+/,"") || "0"`; `d = max(0, min(36, decimals))`;
`if (d === 0) return v`; `pad = d - v.length + 1`;
`s = pad > 0 ? "0".repeat(pad) + v : v`; `i = s.length - d`;
`whole = s.slice(0, i)`; `frac = s.slice(i).replace(/0+$/,"")`;
`frac ? whole + "." + frac : whole`. -/
def formatAmountL (value : List Char) (decimals : Int) : List Char :=
  let v := if stripLeadingZeros value = [] then ['0'] else stripLeadingZeros value
  let d := max 0 (min 36 decimals)
  if d = 0 then v
  else
    let pad : Int := d - (v.length : Int) + 1
    let s := if 0 < pad then List.replicate pad.toNat '0' ++ v else v
    let i := s.length - d.toNat
    let whole := s.take i
    let frac := stripTrailingZeros (s.drop i)
    if frac = [] then whole else whole ++ '.' :: frac

/-- The route's `formatAmount` on strings (`decimals` an integer; the
`decimals || 0` NaN guard is applied by `formatAmountN`). -/
def formatAmount (value : String) (decimals : Int) : String :=
  (formatAmountL value.toList decimals).asString

/-- `formatAmount(value, Number(dec))` as called by the route. -/
def formatAmountN (value : String) (dec : JSNum) : String :=
  formatAmount value (jsToDecimals dec)

/-- Modelled from the spec's reference algorithm for `formatAmount`
(§4.1): strip leading zeros (empty becomes "0"), clamp decimals to
[0,36], if zero return the stripped string, otherwise left-pad with
zeros until the length exceeds `decimals` by exactly one digit, split
into whole part (all but the last `decimals` digits) and fractional part
(the last `decimals` digits), strip trailing zeros from the fraction,
and return the whole part alone when the fraction becomes empty. -/
def specFormatAmountL (raw : List Char) (decimals : Int) : List Char :=
  let stripped := if raw.dropWhile (fun c => c = '0') = [] then ['0']
                  else raw.dropWhile (fun c => c = '0')
  let d := max 0 (min 36 decimals)
  if d = 0 then stripped
  else
    let padded := if (stripped.length : Int) ≤ d then
                    List.replicate (d.toNat + 1 - stripped.length) '0' ++ stripped
                  else stripped
    let whole := padded.take (padded.length - d.toNat)
    let fracPart := padded.drop (padded.length - d.toNat)
    let frac := (fracPart.reverse.dropWhile (fun c => c = '0')).reverse
    if frac = [] then whole else whole ++ '.' :: frac

/-- The spec's reference `formatAmount`, on strings. -/
def specFormatAmount (value : String) (decimals : Int) : String :=
  (specFormatAmountL value.toList decimals).asString

/-! ## Data model of the trace route -/

/-- `direction` request values (TypeScript union `Direction`). -/
inductive Direction where
  | upstream | downstream | both
deriving DecidableEq

/-- Node kinds. -/
inductive NodeKind where
  | wallet | contract | unknown
deriving DecidableEq

/-- `GraphNode`. -/
structure GraphNode where
  id : String
  label : String
  kind : NodeKind
deriving DecidableEq

/-- `GraphEdge`. -/
structure GraphEdge where
  id : String
  source : String
  target : String
  label : String
  txHash : String
  timeStamp : JSNum
deriving DecidableEq

/-- One `tokentx` result item (all provider fields are strings). -/
structure TokentxItem where
  blockNumber : String := ""
  timeStamp : String := ""
  hash : String := ""
  nonce : String := ""
  blockHash : String := ""
  tokenFrom : String := ""      -- `from` (a Lean keyword)
  contractAddress : String := ""
  tokenTo : String := ""        -- `to`
  value : String := ""
  tokenName : String := ""
  tokenSymbol : String := ""
  tokenDecimal : String := ""
  transactionIndex : String := ""
  gas : String := ""
  gasPrice : String := ""
  gasUsed : String := ""
  cumulativeGasUsed : String := ""
  input : String := ""
  confirmations : String := ""
deriving DecidableEq

/-- `EtherscanTokentxResponse`: `result` is an item array or a string;
the string case (malformed for the route's purposes) is `none`. -/
structure TokentxResponse where
  status : String
  message : String := ""
  result : Option (List TokentxItem)
deriving DecidableEq

/-- A `startTransfers` entry: the spread provider item plus the derived
`direction` and `amountFormatted` fields. -/
structure StartTransfer where
  item : TokentxItem
  direction : String
  amountFormatted : String
deriving DecidableEq

/-- The mutable state accumulated by the `POST` handler during the BFS.
JavaScript `Map`s become insertion-ordered association lists, `Set`s
insertion-ordered duplicate-free lists. -/
structure TraceState where
  nodes : List (String × GraphNode)
  edges : List (String × GraphEdge)
  transfers : List StartTransfer
  visited : List String
  nextFrontier : List String
  classifyQueue : List String
deriving DecidableEq

/-! ## Map / Set operations -/

/-- `Set.prototype.add`: append if absent (JS sets iterate in insertion
order). -/
def setAdd (l : List String) (x : String) : List String :=
  if x ∈ l then l else l ++ [x]

/-- `Map.prototype.set`: overwrite in place when the key exists
(JS maps keep the original insertion position), else append. -/
def mapSet {α : Type} : List (String × α) → String → α → List (String × α)
  | [], k, v => [(k, v)]
  | (k', v') :: rest, k, v =>
      if k' = k then (k', v) :: rest else (k', v') :: mapSet rest k v

/-- The route's guarded edge insertion:
`if (!edges.has(edgeKey)) edges.set(edgeKey, e)`. -/
def edgeSetIfAbsent (m : List (String × GraphEdge)) (k : String) (e : GraphEdge) :
    List (String × GraphEdge) :=
  if (m.lookup k).isSome then m else m ++ [(k, e)]

/-! ## The per-transfer step (route lines 183–268) -/

/-- `${a.slice(0, 6)}…${a.slice(-4)}`: label of an ordinary node. -/
def shortLabel (a : String) : String :=
  jsSliceFirst a 6 ++ "…" ++ jsSliceLast a 4

/-- `Wallet A\n${start.slice(0, 6)}…${start.slice(-4)}`. -/
def startLabel (start : String) : String :=
  "Wallet A\n" ++ jsSliceFirst start 6 ++ "…" ++ jsSliceLast start 4

/-- `${t.hash}:${t.transactionIndex}:${from}:${to}:${t.value}`. -/
def edgeKeyOf (t : TokentxItem) (tFrom tTo : String) : String :=
  t.hash ++ ":" ++ t.transactionIndex ++ ":" ++ tFrom ++ ":" ++ tTo ++ ":" ++ t.value

/-- The edge stored for an included transfer. -/
def mkEdgeOf (t : TokentxItem) (tFrom tTo : String) : GraphEdge :=
  { id := edgeKeyOf t tFrom tTo
    source := tFrom
    target := tTo
    label := jsTrimStr (formatAmountN t.value (jsNumberStr (jsStrOr t.tokenDecimal "0"))
                        ++ " " ++ jsStrOr t.tokenSymbol "")
    txHash := t.hash
    timeStamp := jsNumberStr (jsStrOr t.timeStamp "0") }

/-- Edge registration (route lines 202–216). -/
def edgeStep (s : TraceState) (t : TokentxItem) (tFrom tTo : String) : TraceState :=
  { s with edges := edgeSetIfAbsent s.edges (edgeKeyOf t tFrom tTo) (mkEdgeOf t tFrom tTo) }

/-- Node creation with bounded classification enqueue
(route lines 219–235; `MAX_CLASSIFY = 25`). -/
def MAX_CLASSIFY : Nat := 25

def addNodeIfAbsent (s : TraceState) (a : String) : TraceState :=
  if (s.nodes.lookup a).isSome then s
  else
    { s with
      nodes := s.nodes ++ [(a, { id := a, label := shortLabel a, kind := NodeKind.unknown })]
      classifyQueue :=
        if s.classifyQueue.length < MAX_CLASSIFY then s.classifyQueue ++ [a]
        else s.classifyQueue }

/-- `if (!visited.has(x)) { visited.add(x); nextFrontier.add(x); }`. -/
def frontierAdd (s : TraceState) (x : String) : TraceState :=
  if x ∈ s.visited then s
  else { s with visited := setAdd s.visited x, nextFrontier := setAdd s.nextFrontier x }

/-- Frontier growth (route lines 237–258). -/
def frontierStep (dir : Direction) (addr tFrom tTo : String) (s : TraceState) : TraceState :=
  match dir with
  | Direction.downstream => if tFrom = addr then frontierAdd s tTo else s
  | Direction.upstream => if tTo = addr then frontierAdd s tFrom else s
  | Direction.both =>
      let s1 := if tFrom = addr then frontierAdd s tTo else s
      if tTo = addr then frontierAdd s1 tFrom else s1

/-- Start-address transfer report (route lines 260–268). -/
def startTransferStep (start addr : String) (tFrom : String) (t : TokentxItem)
    (s : TraceState) : TraceState :=
  if addr = start then
    { s with transfers := s.transfers ++
        [{ item := t
           direction := if tFrom = start then "out" else "in"
           amountFormatted :=
             jsTrimStr (formatAmountN t.value (jsNumberStr (jsStrOr t.tokenDecimal "0"))
                        ++ " " ++ t.tokenSymbol) }] }
  else s

/-- Processing of one returned transfer `t` while querying `addr`
(route lines 183–268): normalize endpoints, apply the direction
inclusion filter, then register edge, nodes, frontier growth and the
start-address report, in the route's order. -/
def stepTransfer (dir : Direction) (start addr : String) (s : TraceState)
    (t : TokentxItem) : TraceState :=
  if dir = Direction.both ∨ (dir = Direction.downstream ∧ normAddr t.tokenFrom = addr)
      ∨ (dir = Direction.upstream ∧ normAddr t.tokenTo = addr) then
    startTransferStep start addr (normAddr t.tokenFrom) t
      (frontierStep dir addr (normAddr t.tokenFrom) (normAddr t.tokenTo)
        (addNodeIfAbsent
          (addNodeIfAbsent (edgeStep s t (normAddr t.tokenFrom) (normAddr t.tokenTo))
            (normAddr t.tokenFrom))
          (normAddr t.tokenTo)))
  else s

/-! ## Hops (route lines 166–274) -/

/-- Processing of one frontier address (route lines 169–182): a
non-success status contributes nothing (`continue`); a non-array
`result` is treated as the empty list. -/
def stepAddr (P : String → TokentxResponse) (dir : Direction) (start : String)
    (s : TraceState) (addr : String) : TraceState :=
  if (P addr).status ≠ "1" then s
  else ((P addr).result.getD []).foldl (stepTransfer dir start addr) s

/-- One hop: reset `nextFrontier` and process every frontier address. -/
def runOneHop (P : String → TokentxResponse) (dir : Direction) (start : String)
    (frontier : List String) (s : TraceState) : TraceState :=
  frontier.foldl (stepAddr P dir start) { s with nextFrontier := [] }

/-- The hop loop: up to `n` hops, stopping early when the computed next
frontier is empty (`if (frontier.size === 0) break`). -/
def runHops (P : String → TokentxResponse) (dir : Direction) (start : String) :
    Nat → List String → TraceState → TraceState
  | 0, _, s => s
  | Nat.succ n, frontier, s =>
      let s' := runOneHop P dir start frontier s
      if s'.nextFrontier = [] then s'
      else runHops P dir start n s'.nextFrontier s'

/-- Initial state (route lines 148–164): the start node, `visited` and
the classification queue seeded with the start address. -/
def initState (start : String) : TraceState :=
  { nodes := [(start, { id := start, label := startLabel start, kind := NodeKind.unknown })]
    edges := []
    transfers := []
    visited := [start]
    nextFrontier := []
    classifyQueue := [start] }

/-- The whole BFS traversal of a trace. -/
def runTrace (P : String → TokentxResponse) (dir : Direction) (start : String)
    (n : Nat) : TraceState :=
  runHops P dir start n [start] (initState start)

/-- The successive frontiers actually queried by `runHops` (ghost
observer sharing `runOneHop` and the early-exit condition). -/
def frontiersList (P : String → TokentxResponse) (dir : Direction) (start : String) :
    Nat → List String → TraceState → List (List String)
  | 0, _, _ => []
  | Nat.succ n, frontier, s =>
      let s' := runOneHop P dir start frontier s
      frontier :: (if s'.nextFrontier = [] then []
                   else frontiersList P dir start n s'.nextFrontier s')

/-! ## Post-traversal classification and output (route lines 276–322) -/

/-- `Array.from(new Set(l))`: deduplicate keeping first occurrences in
order. -/
def dedupFirst (l : List String) : List String :=
  l.foldl setAdd []

/-- The classification pass (route lines 276–288): for each of the (at
most `MAX_CLASSIFY`) deduplicated queued addresses, ask the oracle
(`isContractAddress`); a failure (`none`) is ignored.  The concurrent
`Promise.all` writes to pairwise-distinct keys, so the sequential fold
computes the same map. -/
def classifyNodes (oracle : String → Option Bool) (q : List String)
    (nodes : List (String × GraphNode)) : List (String × GraphNode) :=
  ((dedupFirst q).take MAX_CLASSIFY).foldl (fun ns a =>
    match oracle a with
    | none => ns
    | some isC =>
        match ns.lookup a with
        | none => ns
        | some n => mapSet ns a { n with kind := if isC then NodeKind.contract
                                                 else NodeKind.wallet }) nodes

/-- Start node polish (route lines 290–298). -/
def polishStart (start : String) (ns : List (String × GraphNode)) :
    List (String × GraphNode) :=
  match ns.lookup start with
  | none => ns
  | some n =>
      mapSet ns start
        { n with
          kind := if n.kind = NodeKind.unknown then NodeKind.wallet else n.kind
          label := startLabel start }

/-- The node map as the response sees it: classification then polish. -/
def finalNodesMap (P : String → TokentxResponse) (oracle : String → Option Bool)
    (dir : Direction) (start : String) (n : Nat) : List (String × GraphNode) :=
  let s := runTrace P dir start n
  polishStart start (classifyNodes oracle s.classifyQueue s.nodes)

/-- Stable insertion placing `x` before the first element with a
strictly smaller key — the effect of the (stable, ES2019) JS sort with
comparator `(a, b) => key b - key a`. -/
def insertDescBy {α : Type} (key : α → JSNum) (x : α) : List α → List α
  | [] => [x]
  | y :: ys => if jsLtB (key y) (key x) then x :: y :: ys
               else y :: insertDescBy key x ys

/-- Stable sort by descending key. -/
def sortDescBy {α : Type} (key : α → JSNum) : List α → List α
  | [] => []
  | x :: xs => insertDescBy key x (sortDescBy key xs)

/-! ## The `POST` handler -/

/-- The parsed JSON request body.  `Option.none` models an absent (or,
for the numeric fields, `null`, which `??` treats identically) field;
`body.direction` is constrained to the `Direction` union by the request
type. -/
structure TraceBody where
  wallet : Option String := none
  token : Option String := none
  direction : Option Direction := none
  maxHops : Option JSVal := none
  perAddressLimit : Option JSVal := none

/-- An error response: message and HTTP status. -/
structure ErrorResponse where
  error : String
  status : Nat
deriving DecidableEq

/-- A successful trace response (the `ok: true` JSON payload). -/
structure OkResponse where
  wallet : String
  token : String
  direction : Direction
  maxHops : JSNum
  perAddressLimit : JSNum
  nodes : List GraphNode
  edges : List GraphEdge
  summaryNodes : Nat
  summaryEdges : Nat
  summaryStartTransfers : Nat
  startTransfers : List StartTransfer
deriving DecidableEq

/-- `Math.max(1, Math.min(4, Number(body.maxHops ?? 2)))`. -/
def effMaxHops (x : Option JSVal) : JSNum :=
  jsMax (JSNum.num 1) (jsMin (JSNum.num 4) (jsNumberVal (x.getD (JSVal.vNum 2))))

/-- `Math.max(10, Math.min(200, Number(body.perAddressLimit ?? 50)))`. -/
def effPerAddressLimit (x : Option JSVal) : JSNum :=
  jsMax (JSNum.num 10) (jsMin (JSNum.num 200) (jsNumberVal (x.getD (JSVal.vNum 50))))

/-- The `POST` handler (route lines 113–322), with the transfer provider,
the contract oracle and the presence of `ETHERSCAN_API_KEY` passed as
parameters in place of the network and the environment. -/
def POST (P : String → TokentxResponse) (oracle : String → Option Bool)
    (apiKeyPresent : Bool) (body : TraceBody) : Except ErrorResponse OkResponse :=
  let wallet := jsTrimStr (body.wallet.getD "")
  let token := jsTrimStr (body.token.getD "")
  let direction := body.direction.getD Direction.downstream
  let maxHops := effMaxHops body.maxHops
  let perAddressLimit := effPerAddressLimit body.perAddressLimit
  if ¬ isEthAddress wallet then
    Except.error { error := "Invalid wallet address", status := 400 }
  else if ¬ isEthAddress token then
    Except.error { error := "Invalid token contract address", status := 400 }
  else if ¬ apiKeyPresent then
    Except.error { error := "Missing ETHERSCAN_API_KEY (set it in Vercel env vars)"
                   status := 500 }
  else
    let start := normAddr wallet
    let tokenNorm := normAddr token
    let s := runHops P direction start (hopIters maxHops) [start] (initState start)
    let ns := polishStart start (classifyNodes oracle s.classifyQueue s.nodes)
    let nodeArr := ns.map Prod.snd
    let edgeArr := sortDescBy (fun e => e.timeStamp) (s.edges.map Prod.snd)
    let trs := sortDescBy (fun tr => jsNumberStr tr.item.timeStamp) s.transfers
    Except.ok
      { wallet := start
        token := tokenNorm
        direction := direction
        maxHops := maxHops
        perAddressLimit := perAddressLimit
        nodes := nodeArr
        edges := edgeArr
        summaryNodes := nodeArr.length
        summaryEdges := edgeArr.length
        summaryStartTransfers := trs.length
        startTransfers := trs.take 100 }

/-! ## Helper lemmas -/

/-- The route's padding (`pad = d - v.length + 1; pad > 0 ? "0".repeat(pad) + v : v`)
agrees with the spec's "left-pad until the length exceeds `decimals` by
exactly one digit". -/
theorem padding_agrees (v : List Char) (d : Int) (hd : 0 ≤ d) :
    (if 0 < d - (v.length : Int) + 1 then
       List.replicate (d - (v.length : Int) + 1).toNat '0' ++ v
     else v)
    = (if (v.length : Int) ≤ d then
         List.replicate (d.toNat + 1 - v.length) '0' ++ v
       else v) := by
  by_cases h : (v.length : Int) ≤ d
  · rw [if_pos (by omega), if_pos h]
    have : (d - (v.length : Int) + 1).toNat = d.toNat + 1 - v.length := by omega
    rw [this]
  · rw [if_neg (by omega), if_neg h]

/-- The route's `formatAmountL` computes exactly the spec's reference
algorithm. -/
theorem formatAmountL_eq_spec (value : List Char) (decimals : Int) :
    formatAmountL value decimals = specFormatAmountL value decimals := by
  unfold formatAmountL specFormatAmountL stripLeadingZeros stripTrailingZeros
  dsimp only
  by_cases hd : max 0 (min 36 decimals) = 0
  · rw [if_pos hd, if_pos hd]
  · rw [if_neg hd, if_neg hd]
    rw [padding_agrees _ _ (by positivity)]

/-! ## Claim C5 -/

/-- C5: `formatAmount` satisfies the spec's reference algorithm (strip
leading zeros, clamp decimals to [0,36], left-pad so the length exceeds
`decimals` by exactly one, split into whole and fractional parts, strip
trailing zeros from the fraction), and in particular
`formatAmount "1000000000000000000" 18 = "1"`,
`formatAmount "1500000000000000000" 18 = "1.5"`,
`formatAmount "5" 0 = "5"`, `formatAmount "100" 2 = "1"`,
`formatAmount "1" 2 = "0.01"` and `formatAmount "0" 0 = "0"`. -/
theorem formatAmount_matches_spec_algorithm :
    (∀ (v : String) (d : Int), formatAmount v d = specFormatAmount v d)
    ∧ formatAmount "1000000000000000000" 18 = "1"
    ∧ formatAmount "1500000000000000000" 18 = "1.5"
    ∧ formatAmount "5" 0 = "5"
    ∧ formatAmount "100" 2 = "1"
    ∧ formatAmount "1" 2 = "0.01"
    ∧ formatAmount "0" 0 = "0" := by
  refine ⟨fun v d => ?_, by decide, by decide, by decide, by decide, by decide, by decide⟩
  unfold formatAmount specFormatAmount
  rw [formatAmountL_eq_spec]

/-! ## Claim C3 -/

/-- C3 counterexample: with `maxHops` supplied as the non-numeric value
`"abc"`, `Number("abc")` is NaN, `Math.max(1, Math.min(4, NaN))` is NaN,
and NaN is not an integer in `[1,4]`; likewise a supplied `2.5` stays
`2.5` (no integer rounding).  The same happens for `perAddressLimit`. -/
theorem effMaxHops_not_always_integer :
    effMaxHops (some (JSVal.vStr "abc")) = JSNum.nan
    ∧ jsIsIntegerIn 1 4 (effMaxHops (some (JSVal.vStr "abc"))) = false
    ∧ effMaxHops (some (JSVal.vNum (mkRat 5 2))) = JSNum.num (mkRat 5 2)
    ∧ jsIsIntegerIn 1 4 (effMaxHops (some (JSVal.vNum (mkRat 5 2)))) = false
    ∧ effPerAddressLimit (some (JSVal.vStr "abc")) = JSNum.nan
    ∧ jsIsIntegerIn 10 200 (effPerAddressLimit (some (JSVal.vStr "abc"))) = false := by
  refine ⟨by decide, by decide, by decide, by decide, by decide, by decide⟩

/-- C3 (amended): the effective `maxHops` is
`Math.max(1, Math.min(4, Number(body.maxHops ?? 2)))` — default `2` when
the field is absent, clamped into `[1,4]` (without integer rounding) for
every numeric value — and the effective `perAddressLimit` is
`Math.max(10, Math.min(200, Number(body.perAddressLimit ?? 50)))` —
default `50`, clamped into `[10,200]` for numeric values; a supplied
value whose `Number(...)` conversion is NaN yields NaN. -/
theorem effParams_clamped :
    effMaxHops none = JSNum.num 2
    ∧ effPerAddressLimit none = JSNum.num 50
    ∧ (∀ q : ℚ, effMaxHops (some (JSVal.vNum q)) = JSNum.num (max 1 (min 4 q)))
    ∧ (∀ q : ℚ, 1 ≤ max 1 (min 4 q) ∧ max 1 (min 4 q) ≤ 4)
    ∧ (∀ q : ℚ, effPerAddressLimit (some (JSVal.vNum q)) = JSNum.num (max 10 (min 200 q)))
    ∧ (∀ q : ℚ, 10 ≤ max 10 (min 200 q) ∧ max 10 (min 200 q) ≤ 200)
    ∧ (∀ x : JSVal, jsNumberVal x = JSNum.nan →
        effMaxHops (some x) = JSNum.nan ∧ effPerAddressLimit (some x) = JSNum.nan) := by
  refine ⟨by decide, by decide, fun q => rfl,
    fun q => ⟨le_max_left _ _, max_le (by norm_num) (min_le_left _ _)⟩,
    fun q => rfl,
    fun q => ⟨le_max_left _ _, max_le (by norm_num) (min_le_left _ _)⟩,
    fun x hx => ?_⟩
  constructor
  · show jsMax (JSNum.num 1) (jsMin (JSNum.num 4) (jsNumberVal x)) = JSNum.nan
    rw [hx]; rfl
  · show jsMax (JSNum.num 10) (jsMin (JSNum.num 200) (jsNumberVal x)) = JSNum.nan
    rw [hx]; rfl

/-- Witness for the NaN conjunct of `effParams_clamped` at the concrete
non-numeric value `"abc"`. -/
theorem effParams_clamped_witness :
    effMaxHops (some (JSVal.vStr "abc")) = JSNum.nan
    ∧ effPerAddressLimit (some (JSVal.vStr "abc")) = JSNum.nan :=
  effParams_clamped.2.2.2.2.2.2 (JSVal.vStr "abc") (by decide)

/-! ## Association-list lemmas -/

theorem lookup_append_one {β : Type} (m : List (String × β)) (j k : String) (v : β) :
    (m ++ [(j, v)]).lookup k = (m.lookup k).or (if k = j then some v else none) := by
  induction m with
  | nil =>
      by_cases h : k = j
      · simp [List.lookup_cons, h]
      · have hb : (k == j) = false := beq_false_of_ne h
        simp [List.lookup_cons, hb, h]
  | cons p rest ih =>
      obtain ⟨a, b⟩ := p
      by_cases h : k = a
      · have hb : (k == a) = true := beq_iff_eq.mpr h
        simp [List.lookup_cons, hb]
      · have hb : (k == a) = false := beq_false_of_ne h
        simp only [List.cons_append, List.lookup_cons, hb, ih]

theorem lookup_none_countP {β : Type} (m : List (String × β)) (k : String) :
    m.lookup k = none → m.countP (fun p => p.1 == k) = 0 := by
  induction m with
  | nil => intro _; rfl
  | cons p rest ih =>
      obtain ⟨a, b⟩ := p
      intro h
      by_cases hk : k = a
      · rw [List.lookup_cons] at h
        rw [beq_iff_eq.mpr hk] at h
        exact absurd h (by simp)
      · have hb : (k == a) = false := beq_false_of_ne hk
        rw [List.lookup_cons, hb] at h
        simp only [] at h
        have hb' : (a == k) = false := beq_false_of_ne (fun hh => hk hh.symm)
        simp [List.countP_cons, hb', ih h]

theorem edgeSet_lookup (m : List (String × GraphEdge)) (j k : String) (v : GraphEdge) :
    (edgeSetIfAbsent m j v).lookup k
      = (m.lookup k).or (if k = j then some v else none) := by
  unfold edgeSetIfAbsent
  by_cases hj : (m.lookup j).isSome
  · rw [if_pos hj]
    by_cases hk : k = j
    · subst hk
      obtain ⟨w, hw⟩ := Option.isSome_iff_exists.mp hj
      simp [hw]
    · simp [hk]
  · rw [if_neg hj, lookup_append_one]

theorem edgeSet_countP_le (m : List (String × GraphEdge)) (j k : String) (v : GraphEdge) :
    m.countP (fun p => p.1 == k) ≤ 1 →
    (edgeSetIfAbsent m j v).countP (fun p => p.1 == k) ≤ 1 := by
  intro hm
  unfold edgeSetIfAbsent
  by_cases hj : (m.lookup j).isSome
  · rw [if_pos hj]; exact hm
  · rw [if_neg hj]
    rw [List.countP_append]
    by_cases hk : j = k
    · subst hk
      have h0 : m.countP (fun p => p.1 == j) = 0 :=
        lookup_none_countP m j (Option.not_isSome_iff_eq_none.mp hj)
      simp [h0, List.countP_cons]
    · have hb : (j == k) = false := beq_false_of_ne hk
      simp [List.countP_cons, hb, hm]

theorem foldEdges_lookup (obs : List (String × GraphEdge))
    (m : List (String × GraphEdge)) (k : String) :
    (obs.foldl (fun m p => edgeSetIfAbsent m p.1 p.2) m).lookup k
      = (m.lookup k).or ((obs.find? (fun p => p.1 == k)).map Prod.snd) := by
  induction obs generalizing m with
  | nil => simp
  | cons p rest ih =>
      obtain ⟨j, v⟩ := p
      rw [List.foldl_cons, ih, edgeSet_lookup]
      by_cases hk : k = j
      · subst hk
        simp [List.find?, Option.or_assoc]
      · have hb : (j == k) = false := beq_false_of_ne (fun hh => hk hh.symm)
        simp [List.find?, hb, hk]

theorem foldEdges_countP (obs : List (String × GraphEdge))
    (m : List (String × GraphEdge)) (k : String) :
    m.countP (fun p => p.1 == k) ≤ 1 →
    (obs.foldl (fun m p => edgeSetIfAbsent m p.1 p.2) m).countP (fun p => p.1 == k) ≤ 1 := by
  induction obs generalizing m with
  | nil => intro h; exact h
  | cons p rest ih =>
      intro h
      rw [List.foldl_cons]
      exact ih _ (edgeSet_countP_le m p.1 k p.2 h)

/-! ## Claim C8 -/

/-- C8: edge accumulation is idempotent on the composite key: the guarded
insertion (`if (!edges.has(edgeKey)) edges.set(edgeKey, …)`, which is
exactly what `stepTransfer` performs through `edgeStep`) never stores a
key twice — over any sequence of observations the accumulated map holds
at most one edge per key, and the edge stored for a key is the first one
observed, never overwritten by a later observation of the same key. -/
theorem edge_accumulation_idempotent :
    (∀ (m : List (String × GraphEdge)) (k : String) (e e' : GraphEdge),
        edgeSetIfAbsent (edgeSetIfAbsent m k e) k e' = edgeSetIfAbsent m k e)
    ∧ (∀ (obs : List (String × GraphEdge)) (k : String),
        ((obs.foldl (fun m p => edgeSetIfAbsent m p.1 p.2) []).countP (fun p => p.1 == k)) ≤ 1
        ∧ (obs.foldl (fun m p => edgeSetIfAbsent m p.1 p.2) []).lookup k
            = (obs.find? (fun p => p.1 == k)).map Prod.snd)
    ∧ (∀ (s : TraceState) (t : TokentxItem) (tFrom tTo : String),
        (edgeStep s t tFrom tTo).edges
          = edgeSetIfAbsent s.edges (edgeKeyOf t tFrom tTo) (mkEdgeOf t tFrom tTo)) := by
  refine ⟨fun m k e e' => ?_, fun obs k => ⟨?_, ?_⟩, fun s t tFrom tTo => rfl⟩
  · by_cases h : (m.lookup k).isSome
    · unfold edgeSetIfAbsent
      simp [h]
    · have hn : m.lookup k = none := Option.not_isSome_iff_eq_none.mp h
      unfold edgeSetIfAbsent
      rw [if_neg h]
      have hsome : (m ++ [(k, e)]).lookup k = some e := by
        rw [lookup_append_one, hn, if_pos rfl]
        rfl
      simp [hsome]
  · exact foldEdges_countP obs [] k (by simp)
  · rw [foldEdges_lookup]; simp

/-! ## Projection lemmas for the state updaters -/

theorem mem_setAdd_iff (l : List String) (y x : String) :
    x ∈ setAdd l y ↔ x ∈ l ∨ x = y := by
  unfold setAdd
  split
  · exact ⟨Or.inl, fun h => h.elim id (fun hx => hx ▸ ‹y ∈ l›)⟩
  · simp

theorem mem_setAdd_self (l : List String) (x : String) : x ∈ setAdd l x :=
  (mem_setAdd_iff l x x).mpr (Or.inr rfl)

theorem setAdd_subset (l : List String) (y : String) : ∀ x ∈ l, x ∈ setAdd l y :=
  fun x hx => (mem_setAdd_iff l y x).mpr (Or.inl hx)

@[simp] theorem edgeStep_visited (s : TraceState) (t : TokentxItem) (a b : String) :
    (edgeStep s t a b).visited = s.visited := rfl

@[simp] theorem edgeStep_nextFrontier (s : TraceState) (t : TokentxItem) (a b : String) :
    (edgeStep s t a b).nextFrontier = s.nextFrontier := rfl

@[simp] theorem edgeStep_nodes (s : TraceState) (t : TokentxItem) (a b : String) :
    (edgeStep s t a b).nodes = s.nodes := rfl

@[simp] theorem edgeStep_transfers (s : TraceState) (t : TokentxItem) (a b : String) :
    (edgeStep s t a b).transfers = s.transfers := rfl

@[simp] theorem edgeStep_classifyQueue (s : TraceState) (t : TokentxItem) (a b : String) :
    (edgeStep s t a b).classifyQueue = s.classifyQueue := rfl

@[simp] theorem addNodeIfAbsent_visited (s : TraceState) (a : String) :
    (addNodeIfAbsent s a).visited = s.visited := by
  unfold addNodeIfAbsent; split <;> rfl

@[simp] theorem addNodeIfAbsent_nextFrontier (s : TraceState) (a : String) :
    (addNodeIfAbsent s a).nextFrontier = s.nextFrontier := by
  unfold addNodeIfAbsent; split <;> rfl

@[simp] theorem addNodeIfAbsent_transfers (s : TraceState) (a : String) :
    (addNodeIfAbsent s a).transfers = s.transfers := by
  unfold addNodeIfAbsent; split <;> rfl

@[simp] theorem addNodeIfAbsent_edges (s : TraceState) (a : String) :
    (addNodeIfAbsent s a).edges = s.edges := by
  unfold addNodeIfAbsent; split <;> rfl

@[simp] theorem frontierAdd_nodes (s : TraceState) (x : String) :
    (frontierAdd s x).nodes = s.nodes := by
  unfold frontierAdd; split <;> rfl

@[simp] theorem frontierAdd_edges (s : TraceState) (x : String) :
    (frontierAdd s x).edges = s.edges := by
  unfold frontierAdd; split <;> rfl

@[simp] theorem frontierAdd_transfers (s : TraceState) (x : String) :
    (frontierAdd s x).transfers = s.transfers := by
  unfold frontierAdd; split <;> rfl

@[simp] theorem frontierAdd_classifyQueue (s : TraceState) (x : String) :
    (frontierAdd s x).classifyQueue = s.classifyQueue := by
  unfold frontierAdd; split <;> rfl

@[simp] theorem startTransferStep_visited (start addr tFrom : String) (t : TokentxItem)
    (s : TraceState) : (startTransferStep start addr tFrom t s).visited = s.visited := by
  unfold startTransferStep; split <;> rfl

@[simp] theorem startTransferStep_nextFrontier (start addr tFrom : String) (t : TokentxItem)
    (s : TraceState) : (startTransferStep start addr tFrom t s).nextFrontier = s.nextFrontier := by
  unfold startTransferStep; split <;> rfl

@[simp] theorem startTransferStep_nodes (start addr tFrom : String) (t : TokentxItem)
    (s : TraceState) : (startTransferStep start addr tFrom t s).nodes = s.nodes := by
  unfold startTransferStep; split <;> rfl

@[simp] theorem startTransferStep_edges (start addr tFrom : String) (t : TokentxItem)
    (s : TraceState) : (startTransferStep start addr tFrom t s).edges = s.edges := by
  unfold startTransferStep; split <;> rfl

@[simp] theorem startTransferStep_classifyQueue (start addr tFrom : String) (t : TokentxItem)
    (s : TraceState) : (startTransferStep start addr tFrom t s).classifyQueue = s.classifyQueue := by
  unfold startTransferStep; split <;> rfl

theorem frontierAdd_visited_sub (s : TraceState) (x : String) :
    ∀ y ∈ s.visited, y ∈ (frontierAdd s x).visited := by
  intro y hy
  unfold frontierAdd
  split
  · exact hy
  · exact setAdd_subset _ _ _ hy

theorem frontierStep_visited_sub (dir : Direction) (addr tFrom tTo : String) (s : TraceState) :
    ∀ y ∈ s.visited, y ∈ (frontierStep dir addr tFrom tTo s).visited := by
  intro y hy
  cases dir <;> simp only [frontierStep]
  case upstream =>
    split
    · exact frontierAdd_visited_sub s tFrom y hy
    · exact hy
  case downstream =>
    split
    · exact frontierAdd_visited_sub s tTo y hy
    · exact hy
  case both =>
    split
    · apply frontierAdd_visited_sub
      split
      · exact frontierAdd_visited_sub s tTo y hy
      · exact hy
    · split
      · exact frontierAdd_visited_sub s tTo y hy
      · exact hy

theorem frontierAdd_next_mem (s : TraceState) (y x : String) :
    x ∈ (frontierAdd s y).nextFrontier → x ∈ s.nextFrontier ∨ x ∉ s.visited := by
  unfold frontierAdd
  split
  · exact Or.inl
  · intro hx
    rcases (mem_setAdd_iff _ _ _).mp hx with h | h
    · exact Or.inl h
    · exact Or.inr (h ▸ ‹y ∉ s.visited›)

theorem frontierStep_next_mem (dir : Direction) (addr tFrom tTo : String) (s : TraceState)
    (x : String) :
    x ∈ (frontierStep dir addr tFrom tTo s).nextFrontier → x ∈ s.nextFrontier ∨ x ∉ s.visited := by
  cases dir <;> simp only [frontierStep]
  case upstream =>
    split
    · exact frontierAdd_next_mem s tFrom x
    · exact Or.inl
  case downstream =>
    split
    · exact frontierAdd_next_mem s tTo x
    · exact Or.inl
  case both =>
    split
    · intro hx
      rcases frontierAdd_next_mem _ tFrom x hx with h | h
      · split at h
        · rcases frontierAdd_next_mem s tTo x h with h' | h'
          · exact Or.inl h'
          · exact Or.inr h'
        · exact Or.inl h
      · refine Or.inr (fun hv => h ?_)
        split
        · exact frontierAdd_visited_sub s tTo x hv
        · exact hv
    · split
      · exact frontierAdd_next_mem s tTo x
      · exact Or.inl

theorem frontierAdd_next_vis (s : TraceState) (y : String)
    (hinv : ∀ x ∈ s.nextFrontier, x ∈ s.visited) :
    ∀ x ∈ (frontierAdd s y).nextFrontier, x ∈ (frontierAdd s y).visited := by
  intro x hx
  unfold frontierAdd at hx ⊢
  split at hx
  · rw [if_pos ‹y ∈ s.visited›]
    exact hinv x hx
  · rw [if_neg ‹y ∉ s.visited›]
    dsimp only at hx ⊢
    rcases (mem_setAdd_iff _ _ _).mp hx with h | h
    · exact setAdd_subset _ _ _ (hinv x h)
    · exact h ▸ mem_setAdd_self _ _

theorem frontierStep_next_vis (dir : Direction) (addr tFrom tTo : String) (s : TraceState)
    (hinv : ∀ x ∈ s.nextFrontier, x ∈ s.visited) :
    ∀ x ∈ (frontierStep dir addr tFrom tTo s).nextFrontier,
      x ∈ (frontierStep dir addr tFrom tTo s).visited := by
  cases dir <;> simp only [frontierStep]
  case upstream =>
    split
    · exact frontierAdd_next_vis s tFrom hinv
    · exact hinv
  case downstream =>
    split
    · exact frontierAdd_next_vis s tTo hinv
    · exact hinv
  case both =>
    split
    · apply frontierAdd_next_vis
      split
      · exact frontierAdd_next_vis s tTo hinv
      · exact hinv
    · split
      · exact frontierAdd_next_vis s tTo hinv
      · exact hinv

theorem stepTransfer_visited_sub (dir : Direction) (start addr : String) (s : TraceState)
    (t : TokentxItem) : ∀ y ∈ s.visited, y ∈ (stepTransfer dir start addr s t).visited := by
  intro y hy
  unfold stepTransfer
  split
  · rw [startTransferStep_visited]
    apply frontierStep_visited_sub
    simp only [addNodeIfAbsent_visited, edgeStep_visited]
    exact hy
  · exact hy

theorem stepTransfer_next_mem (dir : Direction) (start addr : String) (s : TraceState)
    (t : TokentxItem) (x : String) :
    x ∈ (stepTransfer dir start addr s t).nextFrontier → x ∈ s.nextFrontier ∨ x ∉ s.visited := by
  unfold stepTransfer
  split
  · rw [startTransferStep_nextFrontier]
    intro hx
    have := frontierStep_next_mem dir addr (normAddr t.tokenFrom) (normAddr t.tokenTo) _ x hx
    simpa only [addNodeIfAbsent_nextFrontier, edgeStep_nextFrontier,
      addNodeIfAbsent_visited, edgeStep_visited] using this
  · exact Or.inl

theorem stepTransfer_next_vis (dir : Direction) (start addr : String) (s : TraceState)
    (t : TokentxItem) (hinv : ∀ x ∈ s.nextFrontier, x ∈ s.visited) :
    ∀ x ∈ (stepTransfer dir start addr s t).nextFrontier,
      x ∈ (stepTransfer dir start addr s t).visited := by
  unfold stepTransfer
  split
  · rw [startTransferStep_nextFrontier, startTransferStep_visited]
    apply frontierStep_next_vis
    simpa only [addNodeIfAbsent_nextFrontier, edgeStep_nextFrontier,
      addNodeIfAbsent_visited, edgeStep_visited] using hinv
  · exact hinv

theorem foldTransfers_visited_sub (dir : Direction) (start addr : String)
    (l : List TokentxItem) : ∀ (s : TraceState) (y : String), y ∈ s.visited →
      y ∈ (l.foldl (stepTransfer dir start addr) s).visited := by
  induction l with
  | nil => exact fun s y hy => hy
  | cons t l ih =>
      intro s y hy
      rw [List.foldl_cons]
      exact ih _ y (stepTransfer_visited_sub dir start addr s t y hy)

theorem foldTransfers_next_mem (dir : Direction) (start addr : String)
    (l : List TokentxItem) : ∀ (s : TraceState) (x : String),
      x ∈ (l.foldl (stepTransfer dir start addr) s).nextFrontier →
      x ∈ s.nextFrontier ∨ x ∉ s.visited := by
  induction l with
  | nil => exact fun s x hx => Or.inl hx
  | cons t l ih =>
      intro s x hx
      rw [List.foldl_cons] at hx
      rcases ih _ x hx with h | h
      · exact stepTransfer_next_mem dir start addr s t x h
      · exact Or.inr (fun hv => h (stepTransfer_visited_sub dir start addr s t x hv))

theorem foldTransfers_next_vis (dir : Direction) (start addr : String)
    (l : List TokentxItem) : ∀ (s : TraceState),
      (∀ x ∈ s.nextFrontier, x ∈ s.visited) →
      ∀ x ∈ (l.foldl (stepTransfer dir start addr) s).nextFrontier,
        x ∈ (l.foldl (stepTransfer dir start addr) s).visited := by
  induction l with
  | nil => exact fun s hinv => hinv
  | cons t l ih =>
      intro s hinv
      rw [List.foldl_cons]
      exact ih _ (stepTransfer_next_vis dir start addr s t hinv)

theorem stepAddr_visited_sub (P : String → TokentxResponse) (dir : Direction)
    (start : String) (s : TraceState) (addr : String) :
    ∀ y ∈ s.visited, y ∈ (stepAddr P dir start s addr).visited := by
  intro y hy
  unfold stepAddr
  split
  · exact hy
  · exact foldTransfers_visited_sub dir start addr _ s y hy

theorem stepAddr_next_mem (P : String → TokentxResponse) (dir : Direction)
    (start : String) (s : TraceState) (addr x : String) :
    x ∈ (stepAddr P dir start s addr).nextFrontier → x ∈ s.nextFrontier ∨ x ∉ s.visited := by
  unfold stepAddr
  split
  · exact Or.inl
  · exact foldTransfers_next_mem dir start addr _ s x

theorem stepAddr_next_vis (P : String → TokentxResponse) (dir : Direction)
    (start : String) (s : TraceState) (addr : String)
    (hinv : ∀ x ∈ s.nextFrontier, x ∈ s.visited) :
    ∀ x ∈ (stepAddr P dir start s addr).nextFrontier,
      x ∈ (stepAddr P dir start s addr).visited := by
  unfold stepAddr
  split
  · exact hinv
  · exact foldTransfers_next_vis dir start addr _ s hinv

theorem foldAddrs_visited_sub (P : String → TokentxResponse) (dir : Direction)
    (start : String) (frontier : List String) : ∀ (s : TraceState) (y : String),
      y ∈ s.visited → y ∈ (frontier.foldl (stepAddr P dir start) s).visited := by
  induction frontier with
  | nil => exact fun s y hy => hy
  | cons a f ih =>
      intro s y hy
      rw [List.foldl_cons]
      exact ih _ y (stepAddr_visited_sub P dir start s a y hy)

theorem foldAddrs_next_mem (P : String → TokentxResponse) (dir : Direction)
    (start : String) (frontier : List String) : ∀ (s : TraceState) (x : String),
      x ∈ (frontier.foldl (stepAddr P dir start) s).nextFrontier →
      x ∈ s.nextFrontier ∨ x ∉ s.visited := by
  induction frontier with
  | nil => exact fun s x hx => Or.inl hx
  | cons a f ih =>
      intro s x hx
      rw [List.foldl_cons] at hx
      rcases ih _ x hx with h | h
      · exact stepAddr_next_mem P dir start s a x h
      · exact Or.inr (fun hv => h (stepAddr_visited_sub P dir start s a x hv))

theorem foldAddrs_next_vis (P : String → TokentxResponse) (dir : Direction)
    (start : String) (frontier : List String) : ∀ (s : TraceState),
      (∀ x ∈ s.nextFrontier, x ∈ s.visited) →
      ∀ x ∈ (frontier.foldl (stepAddr P dir start) s).nextFrontier,
        x ∈ (frontier.foldl (stepAddr P dir start) s).visited := by
  induction frontier with
  | nil => exact fun s hinv => hinv
  | cons a f ih =>
      intro s hinv
      rw [List.foldl_cons]
      exact ih _ (stepAddr_next_vis P dir start s a hinv)

/-- The computed next frontier of a hop is disjoint from the addresses
visited before the hop began. -/
theorem runOneHop_next_not_visited (P : String → TokentxResponse) (dir : Direction)
    (start : String) (frontier : List String) (s : TraceState) :
    ∀ x ∈ (runOneHop P dir start frontier s).nextFrontier, x ∉ s.visited := by
  intro x hx
  unfold runOneHop at hx
  rcases foldAddrs_next_mem P dir start frontier _ x hx with h | h
  · exact absurd h (List.not_mem_nil x)
  · exact h

theorem runOneHop_visited_sub (P : String → TokentxResponse) (dir : Direction)
    (start : String) (frontier : List String) (s : TraceState) :
    ∀ y ∈ s.visited, y ∈ (runOneHop P dir start frontier s).visited := by
  intro y hy
  unfold runOneHop
  exact foldAddrs_visited_sub P dir start frontier _ y hy

theorem runOneHop_next_vis (P : String → TokentxResponse) (dir : Direction)
    (start : String) (frontier : List String) (s : TraceState) :
    ∀ x ∈ (runOneHop P dir start frontier s).nextFrontier,
      x ∈ (runOneHop P dir start frontier s).visited := by
  unfold runOneHop
  exact foldAddrs_next_vis P dir start frontier _ (by intro x hx; exact absurd hx (List.not_mem_nil x))

theorem frontiersList_not_visited (P : String → TokentxResponse) (dir : Direction)
    (start : String) : ∀ (n : Nat) (f : List String) (s : TraceState) (v0 : List String),
    (∀ x ∈ v0, x ∈ s.visited) → (∀ x ∈ f, x ∉ v0) →
    ∀ g ∈ frontiersList P dir start n f s, ∀ x ∈ g, x ∉ v0 := by
  intro n
  induction n with
  | zero => intro f s v0 _ _ g hg; exact absurd hg (List.not_mem_nil g)
  | succ n ih =>
      intro f s v0 hv0 hf g hg
      rw [frontiersList] at hg
      rcases List.mem_cons.mp hg with rfl | hg'
      · exact hf
      · split at hg'
        · exact absurd hg' (List.not_mem_nil g)
        · refine ih _ _ v0 ?_ ?_ g hg'
          · exact fun x hx => runOneHop_visited_sub P dir start f s x (hv0 x hx)
          · intro x hx hxv0
            exact runOneHop_next_not_visited P dir start f s x hx (hv0 x hxv0)

theorem frontiersList_pairwise_disjoint (P : String → TokentxResponse) (dir : Direction)
    (start : String) : ∀ (n : Nat) (f : List String) (s : TraceState),
    (∀ x ∈ f, x ∈ s.visited) →
    List.Pairwise (fun g h => ∀ x ∈ g, x ∉ h) (frontiersList P dir start n f s) := by
  intro n
  induction n with
  | zero => intro f s _; exact List.Pairwise.nil
  | succ n ih =>
      intro f s hf
      rw [frontiersList]
      refine List.pairwise_cons.mpr ⟨?_, ?_⟩
      · intro h hh x hxf hxh
        have hnv : ∀ g ∈ (if (runOneHop P dir start f s).nextFrontier = [] then []
            else frontiersList P dir start n (runOneHop P dir start f s).nextFrontier
              (runOneHop P dir start f s)), ∀ y ∈ g, y ∉ s.visited := by
          intro g hg y hy
          split at hg
          · exact absurd hg (List.not_mem_nil g)
          · refine frontiersList_not_visited P dir start n _ _ s.visited ?_ ?_ g hg y hy
            · exact fun z hz => runOneHop_visited_sub P dir start f s z hz
            · exact fun z hz => runOneHop_next_not_visited P dir start f s z hz
        exact hnv h hh x hxh (hf x hxf)
      · split
        · exact List.Pairwise.nil
        · exact ih _ _ (runOneHop_next_vis P dir start f s)

/-! ## Claim C7 -/

/-- C7: during every hop the computed next frontier is disjoint from the
set of addresses visited before the hop began; consequently the
successive frontiers actually queried are pairwise disjoint (no address
is queried in more than one hop) and the start address — visited from
the outset, including under self-transfers — never reappears in any
later frontier. -/
theorem frontier_never_requeues_visited :
    (∀ (P : String → TokentxResponse) (dir : Direction) (start : String)
        (frontier : List String) (s : TraceState),
        ∀ x ∈ (runOneHop P dir start frontier s).nextFrontier, x ∉ s.visited)
    ∧ (∀ (P : String → TokentxResponse) (dir : Direction) (start : String) (n : Nat),
        List.Pairwise (fun g h => ∀ x ∈ g, x ∉ h)
          (frontiersList P dir start n [start] (initState start)))
    ∧ (∀ (P : String → TokentxResponse) (dir : Direction) (start : String) (n : Nat),
        ∀ g ∈ (frontiersList P dir start n [start] (initState start)).tail, start ∉ g) := by
  refine ⟨runOneHop_next_not_visited, ?_, ?_⟩
  · intro P dir start n
    refine frontiersList_pairwise_disjoint P dir start n [start] (initState start) ?_
    intro x hx
    rw [List.mem_singleton.mp hx]
    exact List.mem_singleton.mpr rfl
  · intro P dir start n g hg hstart
    cases n with
    | zero => exact absurd hg (List.not_mem_nil g)
    | succ n =>
        rw [frontiersList, List.tail_cons] at hg
        split at hg
        · exact absurd hg (List.not_mem_nil g)
        · refine frontiersList_not_visited P dir start n _ _
            (initState start).visited ?_ ?_ g hg start hstart ?_
          · exact fun z hz => runOneHop_visited_sub P dir start [start] (initState start) z hz
          · exact fun z hz => runOneHop_next_not_visited P dir start [start] (initState start) z hz
          · exact List.mem_singleton.mpr rfl

@[simp] theorem frontierStep_nodes (dir : Direction) (addr tFrom tTo : String) (s : TraceState) :
    (frontierStep dir addr tFrom tTo s).nodes = s.nodes := by
  cases dir <;> simp only [frontierStep] <;> repeat' split
  all_goals simp

@[simp] theorem frontierStep_edges (dir : Direction) (addr tFrom tTo : String) (s : TraceState) :
    (frontierStep dir addr tFrom tTo s).edges = s.edges := by
  cases dir <;> simp only [frontierStep] <;> repeat' split
  all_goals simp

@[simp] theorem frontierStep_transfers (dir : Direction) (addr tFrom tTo : String)
    (s : TraceState) : (frontierStep dir addr tFrom tTo s).transfers = s.transfers := by
  cases dir <;> simp only [frontierStep] <;> repeat' split
  all_goals simp

@[simp] theorem frontierStep_classifyQueue (dir : Direction) (addr tFrom tTo : String)
    (s : TraceState) : (frontierStep dir addr tFrom tTo s).classifyQueue = s.classifyQueue := by
  cases dir <;> simp only [frontierStep] <;> repeat' split
  all_goals simp

/-! ## Claim C6 -/

/-- C6: for a transfer `from = A`, `to = B` (`A ≠ B`) observed while
querying `A`: `downstream` includes it (the edge is registered) and adds
`B` to the next frontier when not yet visited; `upstream` excludes it
entirely (the state is unchanged — no edge, node or frontier entry);
`both` behaves exactly like `downstream` here, so only `B` (never the
other endpoint `A`) can join the frontier, since `isIn` is false. -/
theorem direction_policy_step (start A B : String) (s : TraceState) (t : TokentxItem)
    (hfrom : normAddr t.tokenFrom = A) (hto : normAddr t.tokenTo = B) (hne : A ≠ B) :
    stepTransfer Direction.upstream start A s t = s
    ∧ stepTransfer Direction.both start A s t = stepTransfer Direction.downstream start A s t
    ∧ (stepTransfer Direction.downstream start A s t).edges
        = edgeSetIfAbsent s.edges (edgeKeyOf t A B) (mkEdgeOf t A B)
    ∧ (B ∉ s.visited →
        B ∈ (stepTransfer Direction.downstream start A s t).nextFrontier
        ∧ B ∈ (stepTransfer Direction.downstream start A s t).visited)
    ∧ (B ∈ s.visited →
        (stepTransfer Direction.downstream start A s t).nextFrontier = s.nextFrontier)
    ∧ (∀ x, x ∈ (stepTransfer Direction.both start A s t).nextFrontier →
        x ∈ s.nextFrontier ∨ x = B) := by
  have hBA : ¬ (B = A) := fun h => hne h.symm
  have hdown : stepTransfer Direction.downstream start A s t
      = startTransferStep start A (normAddr t.tokenFrom) t
          (frontierAdd
            (addNodeIfAbsent
              (addNodeIfAbsent (edgeStep s t (normAddr t.tokenFrom) (normAddr t.tokenTo))
                (normAddr t.tokenFrom)) (normAddr t.tokenTo)) (normAddr t.tokenTo)) := by
    unfold stepTransfer
    rw [if_pos (Or.inr (Or.inl ⟨rfl, hfrom⟩))]
    simp only [frontierStep]
    rw [if_pos hfrom]
  have hup : stepTransfer Direction.upstream start A s t = s := by
    unfold stepTransfer
    rw [if_neg]
    rintro (h | ⟨h, _⟩ | ⟨_, h⟩)
    · exact Direction.noConfusion h
    · exact Direction.noConfusion h
    · rw [hto] at h; exact hBA h
  have hboth : stepTransfer Direction.both start A s t
      = stepTransfer Direction.downstream start A s t := by
    rw [hdown]
    unfold stepTransfer
    rw [if_pos (Or.inl rfl)]
    simp only [frontierStep]
    rw [hfrom, hto, if_pos rfl, if_neg hBA]
  refine ⟨hup, hboth, ?_, ?_, ?_, ?_⟩
  · rw [hdown, startTransferStep_edges, frontierAdd_edges]
    simp only [addNodeIfAbsent_edges]
    rw [hfrom, hto]
    rfl
  · intro hB
    rw [hdown, startTransferStep_nextFrontier, startTransferStep_visited]
    unfold frontierAdd
    rw [hto]
    rw [if_neg (by simpa using hB)]
    constructor
    · exact mem_setAdd_self _ B
    · exact mem_setAdd_self _ B
  · intro hB
    rw [hdown, startTransferStep_nextFrontier]
    unfold frontierAdd
    rw [hto]
    rw [if_pos (by simpa using hB)]
    simp
  · intro x hx
    rw [hboth, hdown, startTransferStep_nextFrontier] at hx
    unfold frontierAdd at hx
    rw [hto] at hx
    by_cases hB : B ∈ s.visited
    · rw [if_pos (by simpa using hB)] at hx
      exact Or.inl (by simpa using hx)
    · rw [if_neg (by simpa using hB)] at hx
      dsimp only at hx
      rcases (mem_setAdd_iff _ _ _).mp (by simpa using hx) with h | h
      · exact Or.inl h
      · exact Or.inr h

/-- A concrete transfer `a → b` used to instantiate the direction-policy
theorem. -/
def abTransfer : TokentxItem :=
  { tokenFrom := "a", tokenTo := "b", value := "1", hash := "h" }

/-- Witness for `direction_policy_step`: at the concrete transfer
`a → b` queried from `a`, the `upstream` direction leaves the state
unchanged. -/
theorem direction_policy_step_witness :
    stepTransfer Direction.upstream "a" "a" (initState "a") abTransfer = initState "a" :=
  (direction_policy_step "a" "a" "b" (initState "a") abTransfer
    (by decide) (by decide) (by decide)).1

/-- A two-hop provider: `w` sends to `x`, `x` sends to `y`, everything
else has no transfers. -/
def twoHopProvider : String → TokentxResponse := fun a =>
  if a = "w" then
    { status := "1", result := some [{ tokenFrom := "w", tokenTo := "x", value := "1", hash := "h1" }] }
  else if a = "x" then
    { status := "1", result := some [{ tokenFrom := "x", tokenTo := "y", value := "1", hash := "h2" }] }
  else { status := "0", message := "No transactions found", result := none }

/-- Witness for `frontier_never_requeues_visited`: in the concrete
two-hop downstream trace from `w` the second queried frontier is `[x]`,
and the start address is not in it. -/
theorem frontier_never_requeues_visited_witness : "w" ∉ (["x"] : List String) :=
  frontier_never_requeues_visited.2.2 twoHopProvider Direction.downstream "w" 2 ["x"]
    (by decide)

/-! ## Claim C4 -/

/-- C4: a failed transfer query for one frontier address — non-success
status or a malformed (non-array) `result` — contributes nothing for
that address but does not abort the hop: processing a frontier that
starts with the failing address is identical to processing the frontier
without it, so the transfers of every other frontier address are still
processed and their edges and nodes appear. -/
theorem provider_soft_failure (P : String → TokentxResponse) (dir : Direction)
    (start : String) (s : TraceState) (addr : String) (rest : List String) :
    ((P addr).status ≠ "1" →
        stepAddr P dir start s addr = s
        ∧ List.foldl (stepAddr P dir start) s (addr :: rest)
            = List.foldl (stepAddr P dir start) s rest
        ∧ runOneHop P dir start (addr :: rest) s = runOneHop P dir start rest s)
    ∧ ((P addr).result = none → stepAddr P dir start s addr = s) := by
  constructor
  · intro h
    have h1 : ∀ s' : TraceState, stepAddr P dir start s' addr = s' := by
      intro s'
      unfold stepAddr
      rw [if_pos h]
    refine ⟨h1 s, ?_, ?_⟩
    · rw [List.foldl_cons, h1 s]
    · unfold runOneHop
      rw [List.foldl_cons, h1]
  · intro h
    unfold stepAddr
    split
    · rfl
    · rw [h]
      rfl

/-- A provider that fails (no-transactions status) for every address but
`w`, which sends one transfer to `x`. -/
def failingProvider : String → TokentxResponse := fun a =>
  if a = "w" then
    { status := "1", result := some [{ tokenFrom := "w", tokenTo := "x", value := "1", hash := "h1" }] }
  else { status := "0", message := "NOTOK", result := none }

/-- Witness for `provider_soft_failure`: the failing address `bad`
contributes nothing and the hop still processes `w`. -/
theorem provider_soft_failure_witness :
    stepAddr failingProvider Direction.downstream "w" (initState "w") "bad" = initState "w"
    ∧ List.foldl (stepAddr failingProvider Direction.downstream "w") (initState "w") ["bad", "w"]
        = List.foldl (stepAddr failingProvider Direction.downstream "w") (initState "w") ["w"]
    ∧ runOneHop failingProvider Direction.downstream "w" ["bad", "w"] (initState "w")
        = runOneHop failingProvider Direction.downstream "w" ["w"] (initState "w") :=
  (provider_soft_failure failingProvider Direction.downstream "w" (initState "w") "bad" ["w"]).1
    (by decide)

/-! ## Claim C1 machinery: downstream start-transfer directions -/

theorem mem_insertDescBy {α : Type} (key : α → JSNum) (y : α) (l : List α) (x : α) :
    x ∈ insertDescBy key y l ↔ x = y ∨ x ∈ l := by
  induction l with
  | nil => simp [insertDescBy]
  | cons z zs ih =>
      unfold insertDescBy
      split
      · simp
      · rw [List.mem_cons, ih]
        simp [List.mem_cons]
        tauto

theorem mem_sortDescBy {α : Type} (key : α → JSNum) (l : List α) (x : α) :
    x ∈ sortDescBy key l ↔ x ∈ l := by
  induction l with
  | nil => simp [sortDescBy]
  | cons z zs ih =>
      unfold sortDescBy
      rw [mem_insertDescBy, ih, List.mem_cons]

theorem stepTransfer_trans_out (start addr : String) (s : TraceState) (t : TokentxItem)
    (h : ∀ e ∈ s.transfers, e.direction = "out") :
    ∀ e ∈ (stepTransfer Direction.downstream start addr s t).transfers, e.direction = "out" := by
  unfold stepTransfer
  split
  · rename_i hc
    rcases hc with hc | ⟨_, hc⟩ | ⟨hc, _⟩
    · exact Direction.noConfusion hc
    · unfold startTransferStep
      split
      · rename_i hstart
        intro e he
        simp only [frontierStep_transfers, addNodeIfAbsent_transfers,
          edgeStep_transfers] at he
        rcases List.mem_append.mp he with h' | h'
        · exact h e h'
        · rw [List.mem_singleton.mp h']
          dsimp only
          rw [hc, hstart, if_pos rfl]
      · intro e he
        simp only [frontierStep_transfers, addNodeIfAbsent_transfers,
          edgeStep_transfers] at he
        exact h e he
    · exact Direction.noConfusion hc
  · exact h

theorem foldTransfers_trans_out (start addr : String) (l : List TokentxItem) :
    ∀ (s : TraceState), (∀ e ∈ s.transfers, e.direction = "out") →
      ∀ e ∈ (l.foldl (stepTransfer Direction.downstream start addr) s).transfers,
        e.direction = "out" := by
  induction l with
  | nil => exact fun s h => h
  | cons t l ih =>
      intro s h
      rw [List.foldl_cons]
      exact ih _ (stepTransfer_trans_out start addr s t h)

theorem stepAddr_trans_out (P : String → TokentxResponse) (start : String) (s : TraceState)
    (addr : String) (h : ∀ e ∈ s.transfers, e.direction = "out") :
    ∀ e ∈ (stepAddr P Direction.downstream start s addr).transfers, e.direction = "out" := by
  unfold stepAddr
  split
  · exact h
  · exact foldTransfers_trans_out start addr _ s h

theorem foldAddrs_trans_out (P : String → TokentxResponse) (start : String)
    (frontier : List String) : ∀ (s : TraceState), (∀ e ∈ s.transfers, e.direction = "out") →
      ∀ e ∈ (frontier.foldl (stepAddr P Direction.downstream start) s).transfers,
        e.direction = "out" := by
  induction frontier with
  | nil => exact fun s h => h
  | cons a f ih =>
      intro s h
      rw [List.foldl_cons]
      exact ih _ (stepAddr_trans_out P start s a h)

theorem runHops_trans_out (P : String → TokentxResponse) (start : String) :
    ∀ (n : Nat) (frontier : List String) (s : TraceState),
      (∀ e ∈ s.transfers, e.direction = "out") →
      ∀ e ∈ (runHops P Direction.downstream start n frontier s).transfers,
        e.direction = "out" := by
  intro n
  induction n with
  | zero => exact fun f s h => h
  | succ n ih =>
      intro f s h
      rw [runHops]
      have hhop : ∀ e ∈ (runOneHop P Direction.downstream start f s).transfers,
          e.direction = "out" := by
        unfold runOneHop
        exact foldAddrs_trans_out P start f _ h
      split
      · exact hhop
      · exact ih _ _ hhop

/-! ## Claim C1 -/

/-- Concrete 42-character addresses for end-to-end scenarios. -/
def walletA : String := "0xaaaaaaaaaaaaaaaaaaaaaaaaaaaaaaaaaaaaaaaa"

def walletB : String := "0xbbbbbbbbbbbbbbbbbbbbbbbbbbbbbbbbbbbbbbbb"

def tokenC : String := "0xcccccccccccccccccccccccccccccccccccccccc"

/-- A provider that answers the start address `walletA` with a single
incoming transfer `walletB → walletA` and everything else with a
no-results status. -/
def incomingProvider : String → TokentxResponse := fun a =>
  if a = walletA then
    { status := "1"
      result := some [{ tokenFrom := walletB, tokenTo := walletA,
                        value := "2000000000000000000", tokenDecimal := "18",
                        hash := "0xab" }] }
  else { status := "0", message := "No transactions found", result := none }

/-- A downstream one-hop request for `walletA`. -/
def downstreamBody : TraceBody :=
  { wallet := some walletA, token := some tokenC,
    direction := some Direction.downstream, maxHops := some (JSVal.vNum 1) }

/-- C1 counterexample: under `direction = downstream` with a single
incoming transfer touching the start address, the start-address report
is empty — the transfer does not appear in `startTransfers` at all (the
report push sits after the inclusion filter's `continue`), contradicting
the claim that it appears with direction `"in"`. -/
theorem start_report_not_unfiltered :
    (POST incomingProvider (fun _ => none) true downstreamBody).map
        (fun r => (r.startTransfers.length, r.summaryStartTransfers, r.summaryEdges))
      = Except.ok (0, 0, 0) := by
  rfl

/-- C1 (amended): the start-address transfer report IS subject to the
hop's direction inclusion filter: a transfer touching the start address
is recorded only when the direction policy includes it, so under
`direction = downstream` every recorded `startTransfers` entry has
direction `"out"` (incoming transfers to the start never appear). -/
theorem start_report_is_filtered (P : String → TokentxResponse)
    (oracle : String → Option Bool) (ak : Bool) (body : TraceBody) (r : OkResponse)
    (hdir : body.direction.getD Direction.downstream = Direction.downstream)
    (hok : POST P oracle ak body = Except.ok r) :
    ∀ e ∈ r.startTransfers, e.direction = "out" := by
  unfold POST at hok
  rw [hdir] at hok
  dsimp only at hok
  split at hok
  · exact Except.noConfusion hok
  · split at hok
    · exact Except.noConfusion hok
    · split at hok
      · exact Except.noConfusion hok
      · cases Except.ok.inj hok
        intro e he
        have he1 := List.mem_of_mem_take he
        have he2 := (mem_sortDescBy _ _ _).mp he1
        refine runHops_trans_out P _ _ _ _ ?_ e he2
        intro e' he'
        exact absurd he' (List.not_mem_nil e')

/-- A provider answering `walletA` with one outgoing transfer
`walletA → walletB` and everything else with a no-results status. -/
def outgoingProvider : String → TokentxResponse := fun a =>
  if a = walletA then
    { status := "1"
      result := some [{ tokenFrom := walletA, tokenTo := walletB,
                        value := "2000000000000000000", tokenDecimal := "18",
                        hash := "0xaa" }] }
  else { status := "0", message := "No transactions found", result := none }

/-- The successful response of the concrete downstream outgoing-transfer
scenario. -/
def outResponse : OkResponse :=
  match POST outgoingProvider (fun _ => none) true downstreamBody with
  | Except.ok r => r
  | Except.error _ =>
      { wallet := "", token := "", direction := Direction.downstream,
        maxHops := JSNum.nan, perAddressLimit := JSNum.nan, nodes := [], edges := [],
        summaryNodes := 0, summaryEdges := 0, summaryStartTransfers := 0,
        startTransfers := [] }

/-- The first (and only) start-report entry of that scenario. -/
def outEntry : StartTransfer :=
  match outResponse.startTransfers with
  | e :: _ => e
  | [] => { item := {}, direction := "", amountFormatted := "" }

/-- Witness for `start_report_is_filtered`: in the concrete downstream
trace with one outgoing transfer, the (non-empty) report's entry has
direction `"out"`. -/
theorem start_report_is_filtered_witness : outEntry.direction = "out" :=
  start_report_is_filtered outgoingProvider (fun _ => none) true downstreamBody
    outResponse rfl rfl outEntry (by decide)

/-! ## Claim C2 -/

/-- C2 counterexample: in the spec's end-to-end scenario the edge label
and the report's `amountFormatted` are `"2"`, not `"2 "` — the route
applies `.trim()` to `"<amount> <symbol>"`, so with an empty symbol the
trailing space is removed. -/
theorem trace_scenario_labels_trimmed :
    (POST outgoingProvider (fun _ => none) true downstreamBody).map
        (fun r => (r.edges.map (fun e => e.label),
                   r.startTransfers.map (fun e => e.amountFormatted)))
      = Except.ok (["2"], ["2"])
    ∧ ("2" : String) ≠ "2 " := by
  constructor
  · rfl
  · decide

/-- C2 (amended): for wallet `walletA`, token `tokenC`,
`direction = downstream`, `maxHops = 1`, where the provider returns the
single transfer `walletA → walletB` of value `2000000000000000000` with
18 decimals for the start address and no results elsewhere, the trace
returns exactly the nodes `walletA, walletB`, one edge
`walletA → walletB` labelled `"2"` (trimmed, symbol empty),
`summary.edges = 1`, and a one-entry start report with direction
`"out"` and `amountFormatted = "2"`. -/
theorem trace_scenario_end_to_end :
    (POST outgoingProvider (fun _ => none) true downstreamBody).map
        (fun r => (r.nodes.map (fun n => n.id),
                   r.edges.map (fun e => (e.source, e.target, e.label)),
                   r.summaryNodes, r.summaryEdges,
                   r.startTransfers.map (fun e => (e.direction, e.amountFormatted))))
      = Except.ok ([walletA, walletB], [(walletA, walletB, "2")], 2, 1, [("out", "2")]) := by
  rfl

/-! ## Claim C10 -/

/-- C10: the wallet and token strings are trimmed before address
validation — so a whitespace-padded address is accepted — and the
`wallet` / `token` fields echoed in a successful response are the
trimmed, lowercased (normalized) forms of the caller's strings. -/
theorem request_trimmed_and_normalized (P : String → TokentxResponse)
    (oracle : String → Option Bool) (body : TraceBody)
    (hw : isEthAddress (jsTrimStr (body.wallet.getD "")) = true)
    (ht : isEthAddress (jsTrimStr (body.token.getD "")) = true) :
    (POST P oracle true body).map (fun r => (r.wallet, r.token))
      = Except.ok (normAddr (jsTrimStr (body.wallet.getD "")),
                   normAddr (jsTrimStr (body.token.getD ""))) := by
  unfold POST
  dsimp only
  rw [hw, ht]
  rfl

/-- A request body with whitespace padding and mixed-case letters in
both addresses. -/
def paddedBody : TraceBody :=
  { wallet := some "  0xAaAaAaAaAaAaAaAaAaAaAaAaAaAaAaAaAaAaAaAa  "
    token := some " 0xCcCcCcCcCcCcCcCcCcCcCcCcCcCcCcCcCcCcCcCc " }

/-- Witness for `request_trimmed_and_normalized`: the padded mixed-case
request is accepted, and the echoed fields are the trimmed lowercase
addresses, not the caller's original strings. -/
theorem request_trimmed_and_normalized_witness :
    (POST (fun _ => { status := "0", result := none }) (fun _ => none) true paddedBody).map
        (fun r => (r.wallet, r.token))
      = Except.ok (walletA, tokenC) := by
  have h := request_trimmed_and_normalized (fun _ => { status := "0", result := none })
    (fun _ => none) paddedBody (by decide) (by decide)
  rw [h]
  rfl

/-! ## Claim C9 machinery -/

theorem mapSet_lookup_ne {α : Type} (m : List (String × α)) (k a : String) (v : α)
    (h : a ≠ k) : (mapSet m k v).lookup a = m.lookup a := by
  induction m with
  | nil =>
      simp only [mapSet]
      rw [List.lookup_cons, beq_false_of_ne h]
  | cons p rest ih =>
      obtain ⟨b, w⟩ := p
      simp only [mapSet]
      split
      · rename_i hbk
        subst hbk
        rw [List.lookup_cons, List.lookup_cons, beq_false_of_ne h]
      · rw [List.lookup_cons, List.lookup_cons]
        cases hab : (a == b)
        · simp only []
          exact ih
        · rfl

theorem lookup_mem {α : Type} (m : List (String × α)) (k : String) (v : α) :
    m.lookup k = some v → (k, v) ∈ m := by
  induction m with
  | nil => intro h; exact absurd h (by simp)
  | cons p rest ih =>
      obtain ⟨a, b⟩ := p
      intro h
      rw [List.lookup_cons] at h
      cases hk : (k == a)
      · rw [hk] at h
        simp only [] at h
        exact List.mem_cons_of_mem _ (ih h)
      · rw [hk] at h
        simp only [] at h
        rw [beq_iff_eq.mp hk, Option.some.inj h]
        exact List.mem_cons_self _ _

theorem dedupFirst_mem (q : List String) : ∀ (acc : List String) (x : String),
    x ∈ q.foldl setAdd acc → x ∈ acc ∨ x ∈ q := by
  induction q with
  | nil => exact fun acc x hx => Or.inl hx
  | cons h q ih =>
      intro acc x hx
      rw [List.foldl_cons] at hx
      rcases ih _ x hx with hacc | hq
      · rcases (mem_setAdd_iff _ _ _).mp hacc with h' | h'
        · exact Or.inl h'
        · exact Or.inr (h' ▸ List.mem_cons_self _ _)
      · exact Or.inr (List.mem_cons_of_mem _ hq)

theorem classifyNodes_lookup_not_mem (oracle : String → Option Bool) (q : List String)
    (ns : List (String × GraphNode)) (a : String) (ha : a ∉ q) :
    (classifyNodes oracle q ns).lookup a = ns.lookup a := by
  unfold classifyNodes
  have hsub : ∀ b ∈ (dedupFirst q).take MAX_CLASSIFY, b ≠ a := by
    intro b hb hba
    subst hba
    have := dedupFirst_mem q [] b (List.mem_of_mem_take hb)
    rcases this with h' | h'
    · exact absurd h' (List.not_mem_nil b)
    · exact ha h'
  generalize (dedupFirst q).take MAX_CLASSIFY = l at hsub
  induction l generalizing ns with
  | nil => rfl
  | cons b l ih =>
      rw [List.foldl_cons]
      have hb : b ≠ a := hsub b (List.mem_cons_self _ _)
      have hrest : ∀ c ∈ l, c ≠ a := fun c hc => hsub c (List.mem_cons_of_mem _ hc)
      rw [ih _ hrest]
      cases horacle : oracle b
      · rfl
      · rename_i isC
        cases hlook : ns.lookup b
        · rfl
        · exact mapSet_lookup_ne _ _ _ _ (fun h => hb h.symm)

theorem polishStart_lookup_ne (start : String) (ns : List (String × GraphNode)) (a : String)
    (h : a ≠ start) : (polishStart start ns).lookup a = ns.lookup a := by
  unfold polishStart
  cases ns.lookup start
  · rfl
  · exact mapSet_lookup_ne _ _ _ _ h

theorem addNode_queue_le (s : TraceState) (a : String)
    (h : s.classifyQueue.length ≤ MAX_CLASSIFY) :
    (addNodeIfAbsent s a).classifyQueue.length ≤ MAX_CLASSIFY := by
  unfold addNodeIfAbsent
  split
  · exact h
  · dsimp only
    split
    · rename_i hlt
      rw [List.length_append, List.length_singleton]
      omega
    · exact h

theorem stepTransfer_queue_le (dir : Direction) (start addr : String) (s : TraceState)
    (t : TokentxItem) (h : s.classifyQueue.length ≤ MAX_CLASSIFY) :
    (stepTransfer dir start addr s t).classifyQueue.length ≤ MAX_CLASSIFY := by
  unfold stepTransfer
  split
  · rw [startTransferStep_classifyQueue, frontierStep_classifyQueue]
    exact addNode_queue_le _ _ (addNode_queue_le _ _ (by rw [edgeStep_classifyQueue]; exact h))
  · exact h

theorem foldTransfers_queue_le (dir : Direction) (start addr : String)
    (l : List TokentxItem) : ∀ (s : TraceState), s.classifyQueue.length ≤ MAX_CLASSIFY →
      (l.foldl (stepTransfer dir start addr) s).classifyQueue.length ≤ MAX_CLASSIFY := by
  induction l with
  | nil => exact fun s h => h
  | cons t l ih =>
      intro s h
      rw [List.foldl_cons]
      exact ih _ (stepTransfer_queue_le dir start addr s t h)

theorem stepAddr_queue_le (P : String → TokentxResponse) (dir : Direction) (start : String)
    (s : TraceState) (addr : String) (h : s.classifyQueue.length ≤ MAX_CLASSIFY) :
    (stepAddr P dir start s addr).classifyQueue.length ≤ MAX_CLASSIFY := by
  unfold stepAddr
  split
  · exact h
  · exact foldTransfers_queue_le dir start addr _ s h

theorem foldAddrs_queue_le (P : String → TokentxResponse) (dir : Direction) (start : String)
    (frontier : List String) : ∀ (s : TraceState), s.classifyQueue.length ≤ MAX_CLASSIFY →
      (frontier.foldl (stepAddr P dir start) s).classifyQueue.length ≤ MAX_CLASSIFY := by
  induction frontier with
  | nil => exact fun s h => h
  | cons a f ih =>
      intro s h
      rw [List.foldl_cons]
      exact ih _ (stepAddr_queue_le P dir start s a h)

theorem runHops_queue_le (P : String → TokentxResponse) (dir : Direction) (start : String) :
    ∀ (n : Nat) (frontier : List String) (s : TraceState),
      s.classifyQueue.length ≤ MAX_CLASSIFY →
      (runHops P dir start n frontier s).classifyQueue.length ≤ MAX_CLASSIFY := by
  intro n
  induction n with
  | zero => exact fun f s h => h
  | succ n ih =>
      intro f s h
      rw [runHops]
      have hhop : (runOneHop P dir start f s).classifyQueue.length ≤ MAX_CLASSIFY := by
        unfold runOneHop
        exact foldAddrs_queue_le P dir start f _ h
      split
      · exact hhop
      · exact ih _ _ hhop

theorem addNode_nodes_unknown (s : TraceState) (a : String)
    (h : ∀ p ∈ s.nodes, p.2.kind = NodeKind.unknown) :
    ∀ p ∈ (addNodeIfAbsent s a).nodes, p.2.kind = NodeKind.unknown := by
  unfold addNodeIfAbsent
  split
  · exact h
  · intro p hp
    dsimp only at hp
    rcases List.mem_append.mp hp with h' | h'
    · exact h p h'
    · rw [List.mem_singleton.mp h']

theorem stepTransfer_nodes_unknown (dir : Direction) (start addr : String) (s : TraceState)
    (t : TokentxItem) (h : ∀ p ∈ s.nodes, p.2.kind = NodeKind.unknown) :
    ∀ p ∈ (stepTransfer dir start addr s t).nodes, p.2.kind = NodeKind.unknown := by
  unfold stepTransfer
  split
  · rw [startTransferStep_nodes, frontierStep_nodes]
    exact addNode_nodes_unknown _ _ (addNode_nodes_unknown _ _ (by rw [edgeStep_nodes]; exact h))
  · exact h

theorem foldTransfers_nodes_unknown (dir : Direction) (start addr : String)
    (l : List TokentxItem) : ∀ (s : TraceState),
      (∀ p ∈ s.nodes, p.2.kind = NodeKind.unknown) →
      ∀ p ∈ (l.foldl (stepTransfer dir start addr) s).nodes, p.2.kind = NodeKind.unknown := by
  induction l with
  | nil => exact fun s h => h
  | cons t l ih =>
      intro s h
      rw [List.foldl_cons]
      exact ih _ (stepTransfer_nodes_unknown dir start addr s t h)

theorem stepAddr_nodes_unknown (P : String → TokentxResponse) (dir : Direction)
    (start : String) (s : TraceState) (addr : String)
    (h : ∀ p ∈ s.nodes, p.2.kind = NodeKind.unknown) :
    ∀ p ∈ (stepAddr P dir start s addr).nodes, p.2.kind = NodeKind.unknown := by
  unfold stepAddr
  split
  · exact h
  · exact foldTransfers_nodes_unknown dir start addr _ s h

theorem foldAddrs_nodes_unknown (P : String → TokentxResponse) (dir : Direction)
    (start : String) (frontier : List String) : ∀ (s : TraceState),
      (∀ p ∈ s.nodes, p.2.kind = NodeKind.unknown) →
      ∀ p ∈ (frontier.foldl (stepAddr P dir start) s).nodes, p.2.kind = NodeKind.unknown := by
  induction frontier with
  | nil => exact fun s h => h
  | cons a f ih =>
      intro s h
      rw [List.foldl_cons]
      exact ih _ (stepAddr_nodes_unknown P dir start s a h)

theorem runHops_nodes_unknown (P : String → TokentxResponse) (dir : Direction)
    (start : String) : ∀ (n : Nat) (frontier : List String) (s : TraceState),
      (∀ p ∈ s.nodes, p.2.kind = NodeKind.unknown) →
      ∀ p ∈ (runHops P dir start n frontier s).nodes, p.2.kind = NodeKind.unknown := by
  intro n
  induction n with
  | zero => exact fun f s h => h
  | succ n ih =>
      intro f s h
      rw [runHops]
      have hhop : ∀ p ∈ (runOneHop P dir start f s).nodes, p.2.kind = NodeKind.unknown := by
        unfold runOneHop
        exact foldAddrs_nodes_unknown P dir start f _ h
      split
      · exact hhop
      · exact ih _ _ hhop

/-! ## Claim C9 -/

/-- C9: the classification queue never holds more than `MAX_CLASSIFY`
(25) entries — a push happens only while the queue is strictly shorter —
and an address that never made it into the queue is never classified:
unless it is the start node (whose kind is forced to `wallet`), its node
kind in the final node map is still `unknown`, whatever the
classification oracle answers. -/
theorem classify_queue_bounded :
    (∀ (P : String → TokentxResponse) (dir : Direction) (start : String) (n : Nat),
        (runTrace P dir start n).classifyQueue.length ≤ MAX_CLASSIFY)
    ∧ (∀ (P : String → TokentxResponse) (oracle : String → Option Bool) (dir : Direction)
          (start : String) (n : Nat) (a : String) (g : GraphNode),
        a ∉ (runTrace P dir start n).classifyQueue → a ≠ start →
        (finalNodesMap P oracle dir start n).lookup a = some g →
        g.kind = NodeKind.unknown) := by
  constructor
  · intro P dir start n
    unfold runTrace
    refine runHops_queue_le P dir start n [start] (initState start) ?_
    show ([start] : List String).length ≤ MAX_CLASSIFY
    rw [List.length_singleton]
    unfold MAX_CLASSIFY
    omega
  · intro P oracle dir start n a g ha hastart hlook
    unfold finalNodesMap at hlook
    rw [polishStart_lookup_ne _ _ _ hastart,
      classifyNodes_lookup_not_mem _ _ _ _ ha] at hlook
    have hmem := lookup_mem _ _ _ hlook
    refine runHops_nodes_unknown P dir start n [start] (initState start) ?_ (a, g) hmem
    intro p hp
    rw [initState] at hp
    rw [List.mem_singleton.mp hp]

/-- A provider sending 25 distinct transfers `w → x0 … x24`, so that the
classification queue (seeded with `w`) fills up at 25 entries before
`x24` is discovered. -/
def capItem (i : Nat) : TokentxItem :=
  { tokenFrom := "w", tokenTo := "x" ++ toString i, value := "1", hash := "h" ++ toString i }

def capProvider : String → TokentxResponse := fun a =>
  if a = "w" then { status := "1", result := some ((List.range 25).map capItem) }
  else { status := "0", message := "No transactions found", result := none }

set_option maxRecDepth 100000 in
/-- Witness for `classify_queue_bounded`: in the 25-transfer trace the
queue tops out at 25, the last discovered address `x24` is not queued,
and its node stays `unknown` even though the oracle classifies
everything it is asked as a contract. -/
theorem classify_queue_bounded_witness :
    (runTrace capProvider Direction.downstream "w" 1).classifyQueue.length ≤ MAX_CLASSIFY
    ∧ ({ id := "x24", label := "x24…x24", kind := NodeKind.unknown } : GraphNode).kind
        = NodeKind.unknown :=
  ⟨classify_queue_bounded.1 capProvider Direction.downstream "w" 1,
   classify_queue_bounded.2 capProvider (fun _ => some true) Direction.downstream "w" 1 "x24"
     { id := "x24", label := "x24…x24", kind := NodeKind.unknown }
     (by decide) (by decide) (by decide)⟩
